import Mathlib

/-!
Verification of the window-matching and action-orchestration core of
niri-app-hotkey (src/action.rs, src/config.rs), as a shallow embedding.

The compositor IPC transport, regex compilation and process creation are
external collaborators: a regex is abstracted to its `is_match` predicate,
the process environment to whether spawn/wait succeed and which exit status
the child reports, and an invocation's outcome is the sequence of
side-effecting requests it issues (process spawns and mutating IPC
requests) together with an optional error. The two listing queries
(`Request::Windows`, `Request::WorkspacesWithHidden`) are the snapshot the
orchestrators receive as arguments.

`Vec::sort_by` is a stable sort; Rust leaves the order unspecified when the
comparator is not a total order (the pid comparator compares windows without
a pid as equal to everything, which is not transitive), so the embedding
fixes one concrete stable sort, insertion sort with the same comparator.
-/

/-- niri-ipc `Window`, restricted to the fields src/action.rs reads. -/
structure Window where
  id : Nat
  title : Option String
  app_id : Option String
  pid : Option Int
  workspace_id : Option Nat
  is_focused : Bool
deriving DecidableEq

/-- niri-ipc `Workspace`, restricted to the fields src/action.rs reads. -/
structure Workspace where
  id : Nat
  is_focused : Bool
  is_hidden : Bool
deriving DecidableEq

/-- A compiled regex (config.rs `Regex`), abstracted to its `is_match`
behaviour on strings: search semantics are the pattern's own business. -/
structure Regex where
  is_match : String → Bool

/-- config.rs `MatchRule`: optional app-id pattern, optional title pattern,
optional selection index. -/
structure MatchRule where
  app_id : Option Regex
  title : Option Regex
  index : Option Nat

/-- config.rs `Application`. -/
structure Application where
  name : String
  spawn : Option (List String)
  spawn_sh : Option String
  matches' : List MatchRule
  excludes : List MatchRule

/-- The mutating IPC requests src/action.rs can issue (niri-ipc `Action`). -/
inductive NiriAction where
  | moveWindowToWorkspace (window_id : Nat) (reference : Nat) (focus : Bool)
  | focusWindow (id : Nat)
deriving DecidableEq

/-- A side effect of one invocation: a process spawn attempt or a mutating
IPC request sent over the socket. -/
inductive Event where
  | spawnProcess (command : String) (args : List String)
  | ipc (action : NiriAction)
deriving DecidableEq

/-- The distinct error conditions src/action.rs surfaces (each constructor
stands for one `bail!`/`miette!`/`ok_or_else` site). -/
inductive ActionError where
  | multipleWindowsMatched (ids : List Nat)
  | noWindowMatched
  | windowWithoutWorkspace (window_id : Nat)
  | workspaceNotFound (workspace_id : Nat)
  | noFocusedWindow
  | matchedWindowNotFocused
  | alreadyInHiddenWorkspace
  | noFocusedWorkspace
  | noHiddenWorkspace
  | emptySpawnCommand
  | noSpawnCommand (name : String)
  | spawnFailed
  | waitFailed
deriving DecidableEq

/-- What one invocation did: the side effects it issued, in order, and the
error it surfaced (`none` = the invocation succeeded). -/
structure Outcome where
  events : List Event
  error : Option ActionError
deriving DecidableEq

/-- The external process environment `launch` runs against: whether
`Command::spawn` succeeds, whether `Child::wait` succeeds, and the exit
status the child reports when waited on. -/
structure ProcEnv where
  spawn_ok : Bool
  wait_ok : Bool
  exit_status : Int

/-- `expand_home` from src/action.rs: a leading `~` path component is
replaced by the user's home directory when one can be determined
(`home = none` models `UserDirs::new()` failing). -/
def expand_home (home : Option String) (path : String) : String :=
  match home with
  | none => path
  | some h =>
    if path = "~" then h
    else if path.take 2 = "~/" then h ++ "/" ++ path.drop 2
    else path

/-- The spawn-and-wait tail of `launch`: `process.spawn()` followed by
`child.wait()`. The `Event.spawnProcess` event records the spawn attempt;
the exit status `wait` returns on success is discarded, mirroring the
source's `child.wait().into_diagnostic()...?;`. -/
def run_child (env : ProcEnv) (command : String) (args : List String) : Outcome :=
  if env.spawn_ok = false then
    { events := [Event.spawnProcess command args], error := some ActionError.spawnFailed }
  else
    match (if env.wait_ok = true then Except.ok env.exit_status
           else Except.error ActionError.waitFailed : Except ActionError Int) with
    | Except.error e => { events := [Event.spawnProcess command args], error := some e }
    | Except.ok _ => { events := [Event.spawnProcess command args], error := none }

/-- `launch` from src/action.rs: resolve the spawn spec (the argument-vector
spec `spawn` is consulted first, then the shell spec `spawn_sh`), then spawn
and wait. -/
def launch (env : ProcEnv) (home : Option String) (app : Application) : Outcome :=
  match app.spawn with
  | some spawn_command =>
    match spawn_command with
    | [] => { events := [], error := some ActionError.emptySpawnCommand }
    | c :: rest => run_child env (expand_home home c) rest
  | none =>
    match app.spawn_sh with
    | some spawn_sh_command => run_child env "sh" ["-c", spawn_sh_command]
    | none => { events := [], error := some (ActionError.noSpawnCommand app.name) }

/-- The app-id guard of `is_window_match_rule`: when the rule carries an
app-id pattern, the window must have an app id and it must match. -/
def rule_app_id_ok (window : Window) (rule : MatchRule) : Bool :=
  match rule.app_id with
  | none => true
  | some re =>
    match window.app_id with
    | none => false
    | some s => re.is_match s

/-- The title guard of `is_window_match_rule`. -/
def rule_title_ok (window : Window) (rule : MatchRule) : Bool :=
  match rule.title with
  | none => true
  | some re =>
    match window.title with
    | none => false
    | some s => re.is_match s

/-- `is_window_match_rule` from src/action.rs: both guards must pass. -/
def is_window_match_rule (window : Window) (rule : MatchRule) : Bool :=
  rule_app_id_ok window rule && rule_title_ok window rule

/-- The comparator passed to `sort_by` in `match_windows_with_rules`:
compare process ids when both windows have one, otherwise `Ordering.eq`. -/
def pid_ordering (a b : Window) : Ordering :=
  match a.pid, b.pid with
  | some a_pid, some b_pid => compare a_pid b_pid
  | _, _ => Ordering.eq

/-- Insert a window into an already-sorted list: it goes in front of the
first element the comparator does not place strictly after it. -/
def insert_by_pid (a : Window) : List Window → List Window
  | [] => [a]
  | b :: l =>
    if pid_ordering a b = Ordering.gt then b :: insert_by_pid a l
    else a :: b :: l

/-- The `matched_windows.sort_by(...)` call: a stable sort under
`pid_ordering` (see the header comment on comparator totality). -/
def sort_by_pid : List Window → List Window
  | [] => []
  | a :: l => insert_by_pid a (sort_by_pid l)

/-- One rule's entry in `match_windows_with_rules`: the ids of the windows
satisfying the rule, sorted by `pid_ordering`. -/
def rule_matched_ids (windows : List Window) (rule : MatchRule) : List Nat :=
  (sort_by_pid (windows.filter fun w => is_window_match_rule w rule)).map Window.id

/-- `match_windows_with_rules` from src/action.rs: pair each rule's
configured index with that rule's sorted matched-id list. -/
def match_windows_with_rules (windows : List Window) (rules : List MatchRule) :
    List (Option Nat × List Nat) :=
  rules.map fun rule => (rule.index, rule_matched_ids windows rule)

/-- One pass of the id-collection loops in `get_matched_window_and_workspace`:
whether the loop over `matched_window_ids.iter().enumerate()` inserts `wid`
into the hash set, given the rule's index. -/
def mapping_selects (rule_index : Option Nat) (matched_window_ids : List Nat)
    (wid : Nat) : Bool :=
  matched_window_ids.enum.any fun p =>
    p.2 == wid &&
      (match rule_index with
       | some k => k == p.1
       | none => true)

/-- Membership in the hash set built by the collection loops: some rule's
mapping inserted `wid`. -/
def selected_by_rules (windows : List Window) (rules : List MatchRule)
    (wid : Nat) : Bool :=
  (match_windows_with_rules windows rules).any fun m => mapping_selects m.1 m.2 wid

/-- What a single rule selects, in isolation: the loop body of the
collection loops restricted to that rule's mapping. -/
def rule_selects (windows : List Window) (rule : MatchRule) (wid : Nat) : Bool :=
  mapping_selects rule.index (rule_matched_ids windows rule) wid

/-- The `matched_windows` filter in `get_matched_window_and_workspace`:
include-selected minus exclude-selected, in snapshot order. -/
def candidate_windows (windows : List Window) (matches' excludes : List MatchRule) :
    List Window :=
  windows.filter fun w =>
    !(selected_by_rules windows excludes w.id) && selected_by_rules windows matches' w.id

/-- `get_matched_window_and_workspace` from src/action.rs. -/
def get_matched_window_and_workspace (windows : List Window)
    (workspaces : List Workspace) (matches' excludes : List MatchRule) :
    Except ActionError (Option (Window × Workspace)) :=
  let matched_windows := candidate_windows windows matches' excludes
  if matched_windows.length > 1 then
    Except.error (ActionError.multipleWindowsMatched (matched_windows.map Window.id))
  else
    match matched_windows with
    | [] => Except.ok none
    | matched_window :: _ =>
      match matched_window.workspace_id with
      | none => Except.error (ActionError.windowWithoutWorkspace matched_window.id)
      | some wsid =>
        match workspaces.find? fun ws => ws.id == wsid with
        | none => Except.error (ActionError.workspaceNotFound wsid)
        | some ws => Except.ok (some (matched_window, ws))

/-- `get_focused_window` from src/action.rs. -/
def get_focused_window (windows : List Window) : Option Window :=
  windows.find? fun w => w.is_focused

/-- `get_focused_workspace` from src/action.rs. -/
def get_focused_workspace (workspaces : List Workspace) : Except ActionError Workspace :=
  match workspaces.find? fun ws => ws.is_focused with
  | some ws => Except.ok ws
  | none => Except.error ActionError.noFocusedWorkspace

/-- `get_hidden_workspace` from src/action.rs. -/
def get_hidden_workspace (workspaces : List Workspace) : Except ActionError Workspace :=
  match workspaces.find? fun ws => ws.is_hidden with
  | some ws => Except.ok ws
  | none => Except.error ActionError.noHiddenWorkspace

/-- `show` from src/action.rs (named `show'` because `show` is reserved in
Lean): locate the window, then either move-with-focus (when its workspace
is not the focused one) followed by focus, or focus alone. -/
def show' (app : Application) (windows : List Window) (workspaces : List Workspace) :
    Outcome :=
  match get_matched_window_and_workspace windows workspaces app.matches' app.excludes with
  | Except.error e => { events := [], error := some e }
  | Except.ok none => { events := [], error := some ActionError.noWindowMatched }
  | Except.ok (some (w, ws)) =>
    match get_focused_workspace workspaces with
    | Except.error e => { events := [], error := some e }
    | Except.ok fws =>
      { events :=
          (if fws.id ≠ ws.id then
            [Event.ipc (NiriAction.moveWindowToWorkspace w.id fws.id true)]
          else []) ++ [Event.ipc (NiriAction.focusWindow w.id)],
        error := none }

/-- `hide` from src/action.rs. -/
def hide (app : Application) (windows : List Window) (workspaces : List Workspace) :
    Outcome :=
  match get_matched_window_and_workspace windows workspaces app.matches' app.excludes with
  | Except.error e => { events := [], error := some e }
  | Except.ok none => { events := [], error := some ActionError.noWindowMatched }
  | Except.ok (some (w, ws)) =>
    match get_focused_window windows with
    | none => { events := [], error := some ActionError.noFocusedWindow }
    | some fw =>
      if fw.id ≠ w.id then
        { events := [], error := some ActionError.matchedWindowNotFocused }
      else
        match get_hidden_workspace workspaces with
        | Except.error e => { events := [], error := some e }
        | Except.ok hws =>
          if hws.id = ws.id then
            { events := [], error := some ActionError.alreadyInHiddenWorkspace }
          else
            { events := [Event.ipc (NiriAction.moveWindowToWorkspace w.id hws.id false)],
              error := none }

/-- The tail of `toggle` reached when the matched window is not the focused
one: move it to the focused workspace when the workspaces differ, then
focus it. -/
def toggle_bring_forward (w : Window) (ws : Workspace)
    (workspaces : List Workspace) : Outcome :=
  match get_focused_workspace workspaces with
  | Except.error e => { events := [], error := some e }
  | Except.ok fws =>
    { events :=
        (if fws.id ≠ ws.id then
          [Event.ipc (NiriAction.moveWindowToWorkspace w.id fws.id true)]
        else []) ++ [Event.ipc (NiriAction.focusWindow w.id)],
      error := none }

/-- `toggle` from src/action.rs: launch when nothing matches, park the
window on the hidden workspace when it is the focused one, bring it forward
otherwise. -/
def toggle (env : ProcEnv) (home : Option String) (app : Application)
    (windows : List Window) (workspaces : List Workspace) : Outcome :=
  match get_matched_window_and_workspace windows workspaces app.matches' app.excludes with
  | Except.error e => { events := [], error := some e }
  | Except.ok none => launch env home app
  | Except.ok (some (w, ws)) =>
    match get_focused_window windows with
    | some fw =>
      if fw.id = w.id then
        match get_hidden_workspace workspaces with
        | Except.error e => { events := [], error := some e }
        | Except.ok hws =>
          { events := [Event.ipc (NiriAction.moveWindowToWorkspace w.id hws.id false)],
            error := none }
      else toggle_bring_forward w ws workspaces
    | none => toggle_bring_forward w ws workspaces

/-- Whether the matched window is the currently focused one (the guard of
`toggle`'s hide branch). -/
def matched_is_focused (windows : List Window) (w : Window) : Bool :=
  (get_focused_window windows).any fun fw => fw.id == w.id

deriving instance DecidableEq for Except

/-! ### Helper lemmas about the stable sort -/

theorem pid_ordering_gt_somes (a b : Window) (h : pid_ordering a b = Ordering.gt) :
    ∃ x y, a.pid = some x ∧ b.pid = some y ∧ y < x := by
  cases ha : a.pid with
  | none => simp [pid_ordering, ha] at h
  | some x =>
    cases hb : b.pid with
    | none => simp [pid_ordering, ha, hb] at h
    | some y =>
      simp only [pid_ordering, ha, hb] at h
      exact ⟨x, y, rfl, rfl, compare_gt_iff_gt.mp h⟩

theorem pid_ordering_eq_of_none (a b : Window) (h : a.pid = none ∨ b.pid = none) :
    pid_ordering a b = Ordering.eq := by
  rcases h with h | h <;> cases ha : a.pid <;> cases hb : b.pid <;>
    simp_all [pid_ordering]

theorem pid_ordering_flip (a b : Window) (h : pid_ordering a b = Ordering.gt) :
    pid_ordering b a ≠ Ordering.gt := by
  obtain ⟨x, y, ha, hb, hlt⟩ := pid_ordering_gt_somes a b h
  simp only [pid_ordering, ha, hb]
  intro hc
  exact absurd (compare_gt_iff_gt.mp hc) (not_lt.mpr hlt.le)

theorem insert_by_pid_perm (a : Window) (l : List Window) :
    (insert_by_pid a l).Perm (a :: l) := by
  induction l with
  | nil => exact List.Perm.refl _
  | cons b t ih =>
    unfold insert_by_pid
    by_cases h : pid_ordering a b = Ordering.gt
    · rw [if_pos h]
      exact (ih.cons b).trans (List.Perm.swap a b t)
    · rw [if_neg h]

theorem sort_by_pid_perm (l : List Window) : (sort_by_pid l).Perm l := by
  induction l with
  | nil => exact List.Perm.refl _
  | cons a t ih =>
    exact (insert_by_pid_perm a (sort_by_pid t)).trans (ih.cons a)

theorem mem_insert_by_pid (x a : Window) (l : List Window) :
    x ∈ insert_by_pid a l ↔ x = a ∨ x ∈ l := by
  rw [(insert_by_pid_perm a l).mem_iff, List.mem_cons]

theorem pairwise_insert_by_pid (a : Window) (l : List Window)
    (hl : ∀ x ∈ l, x.pid ≠ none)
    (h : List.Pairwise (fun x y => pid_ordering x y ≠ Ordering.gt) l) :
    List.Pairwise (fun x y => pid_ordering x y ≠ Ordering.gt) (insert_by_pid a l) := by
  induction l with
  | nil => simp [insert_by_pid]
  | cons b t ih =>
    rw [List.pairwise_cons] at h
    obtain ⟨hbt, ht⟩ := h
    unfold insert_by_pid
    by_cases hc : pid_ordering a b = Ordering.gt
    · rw [if_pos hc]
      rw [List.pairwise_cons]
      constructor
      · intro x hx
        rcases (mem_insert_by_pid x a t).mp hx with heq | hx
        · rw [heq]; exact pid_ordering_flip a b hc
        · exact hbt x hx
      · exact ih (fun x hx => hl x (List.mem_cons_of_mem b hx)) ht
    · rw [if_neg hc]
      rw [List.pairwise_cons]
      refine ⟨?_, List.pairwise_cons.mpr ⟨hbt, ht⟩⟩
      intro x hx
      rcases List.mem_cons.mp hx with rfl | hx
      · exact hc
      · -- transitivity through b, using that every element of b :: t has a pid
        cases ha : a.pid with
        | none => simp [pid_ordering_eq_of_none a x (Or.inl ha)]
        | some ap =>
          cases hbp : b.pid with
          | none => exact absurd hbp (hl b (List.mem_cons_self b t))
          | some bp =>
            cases hxp : x.pid with
            | none => simp [pid_ordering_eq_of_none a x (Or.inr hxp)]
            | some xp =>
              have hab : ¬ ap > bp := fun hgt =>
                hc (by simp only [pid_ordering, ha, hbp]; exact compare_gt_iff_gt.mpr hgt)
              have hbx : ¬ bp > xp := fun hgt =>
                hbt x hx (by simp only [pid_ordering, hbp, hxp]; exact compare_gt_iff_gt.mpr hgt)
              simp only [pid_ordering, ha, hxp]
              intro hcmp
              exact absurd (compare_gt_iff_gt.mp hcmp)
                (not_lt.mpr ((not_lt.mp hab).trans (not_lt.mp hbx)))

theorem pairwise_sort_by_pid (l : List Window) (hl : ∀ x ∈ l, x.pid ≠ none) :
    List.Pairwise (fun x y => pid_ordering x y ≠ Ordering.gt) (sort_by_pid l) := by
  induction l with
  | nil => simp [sort_by_pid]
  | cons a t ih =>
    unfold sort_by_pid
    apply pairwise_insert_by_pid
    · intro x hx
      exact hl x (List.mem_cons_of_mem a ((sort_by_pid_perm t).mem_iff.mp hx))
    · exact ih fun x hx => hl x (List.mem_cons_of_mem a hx)

theorem filter_pid_insert_by_pid (p : Option Int) (a : Window) (l : List Window) :
    (insert_by_pid a l).filter (fun w => w.pid == p)
      = if a.pid == p then a :: l.filter (fun w => w.pid == p)
        else l.filter (fun w => w.pid == p) := by
  induction l with
  | nil => simp [insert_by_pid, List.filter_cons]
  | cons b t ih =>
    unfold insert_by_pid
    by_cases hc : pid_ordering a b = Ordering.gt
    · rw [if_pos hc]
      by_cases hap : (a.pid == p) = true
      · have hbp : (b.pid == p) ≠ true := by
          obtain ⟨x, y, hax, hby, hlt⟩ := pid_ordering_gt_somes a b hc
          rw [hby]
          intro hb
          rw [hax] at hap
          rw [beq_iff_eq] at hap hb
          rw [← hap] at hb
          simp only [Option.some.injEq] at hb
          exact absurd hb (ne_of_lt hlt)
        rw [if_pos hap]
        rw [List.filter_cons, List.filter_cons, if_neg hbp, if_neg hbp, ih, if_pos hap]
      · rw [if_neg hap]
        rw [List.filter_cons, List.filter_cons, ih, if_neg hap]
    · rw [if_neg hc]
      by_cases hap : (a.pid == p) = true
      · rw [if_pos hap, List.filter_cons, if_pos hap]
      · rw [if_neg hap, List.filter_cons, if_neg hap]

theorem filter_pid_sort_by_pid (p : Option Int) (l : List Window) :
    (sort_by_pid l).filter (fun w => w.pid == p) = l.filter (fun w => w.pid == p) := by
  induction l with
  | nil => rfl
  | cons a t ih =>
    unfold sort_by_pid
    rw [filter_pid_insert_by_pid, List.filter_cons]
    by_cases hap : (a.pid == p) = true
    · rw [if_pos hap, if_pos hap, ih]
    · rw [if_neg hap, if_neg hap, ih]

/-! ### Helper lemmas about index selection and the locator -/

theorem mapping_selects_some_iff (k wid : Nat) (ids : List Nat) :
    mapping_selects (some k) ids wid = true ↔ ids.get? k = some wid := by
  unfold mapping_selects
  rw [List.any_eq_true]
  constructor
  · rintro ⟨⟨i, x⟩, hmem, hp⟩
    simp only [Bool.and_eq_true, beq_iff_eq] at hp
    obtain ⟨hx, hk⟩ := hp
    have hget := List.mk_mem_enum_iff_getElem?.mp hmem
    rw [List.get?_eq_getElem?, hk, hget, hx]
  · intro h
    refine ⟨(k, wid), ?_, ?_⟩
    · rw [List.mk_mem_enum_iff_getElem?, ← List.get?_eq_getElem?]
      exact h
    · simp

theorem mapping_selects_none_iff (wid : Nat) (ids : List Nat) :
    mapping_selects none ids wid = true ↔ wid ∈ ids := by
  unfold mapping_selects
  rw [List.any_eq_true]
  constructor
  · rintro ⟨⟨i, x⟩, hmem, hp⟩
    simp only [Bool.and_eq_true, beq_iff_eq] at hp
    have hget := List.mk_mem_enum_iff_getElem?.mp hmem
    rw [← hp.1]
    exact List.getElem?_mem hget
  · intro h
    obtain ⟨n, hn⟩ := List.mem_iff_get?.mp h
    refine ⟨(n, wid), ?_, ?_⟩
    · rw [List.mk_mem_enum_iff_getElem?, ← List.get?_eq_getElem?]
      exact hn
    · simp

theorem mapping_selects_out_of_range (k wid : Nat) (ids : List Nat)
    (h : ids.length ≤ k) : mapping_selects (some k) ids wid = false := by
  cases hms : mapping_selects (some k) ids wid with
  | false => rfl
  | true =>
    have := (mapping_selects_some_iff k wid ids).mp hms
    rw [List.get?_eq_getElem?, List.getElem?_eq_none h] at this
    exact absurd this (by simp)

theorem locate_ok_some (windows : List Window) (workspaces : List Workspace)
    (matches' excludes : List MatchRule) (w : Window) (ws : Workspace)
    (h : get_matched_window_and_workspace windows workspaces matches' excludes
      = Except.ok (some (w, ws))) :
    candidate_windows windows matches' excludes = [w] ∧
    ws ∈ workspaces ∧ ws.id ∈ w.workspace_id := by
  unfold get_matched_window_and_workspace at h
  cases hcs : candidate_windows windows matches' excludes with
  | nil => rw [hcs] at h; simp at h
  | cons a t =>
    cases t with
    | cons b t2 => rw [hcs] at h; simp at h
    | nil =>
      rw [hcs] at h
      simp only [List.length_singleton, gt_iff_lt, lt_self_iff_false, if_false] at h
      cases hwid : a.workspace_id with
      | none => rw [hwid] at h; simp at h
      | some wsid =>
        rw [hwid] at h
        dsimp only at h
        cases hfind : workspaces.find? (fun x => x.id == wsid) with
        | none => rw [hfind] at h; simp at h
        | some ws2 =>
          rw [hfind] at h
          simp only [Except.ok.injEq, Option.some.injEq, Prod.mk.injEq] at h
          obtain ⟨hw, hws⟩ := h
          subst hw
          subst hws
          refine ⟨rfl, List.mem_of_find?_eq_some hfind, ?_⟩
          have hp := List.find?_some hfind
          simp only [beq_iff_eq] at hp
          rw [hwid, Option.mem_some_iff]
          exact hp.symm

/-! ### Helper lemmas about launch and focus -/

theorem run_child_events (env : ProcEnv) (c : String) (args : List String) :
    (run_child env c args).events = [Event.spawnProcess c args] := by
  unfold run_child
  by_cases h : env.spawn_ok = false
  · rw [if_pos h]
  · rw [if_neg h]
    by_cases hw : env.wait_ok = true
    · rw [if_pos hw]
    · rw [if_neg hw]

theorem run_child_error (env : ProcEnv) (c : String) (args : List String) :
    (run_child env c args).error
      = if env.spawn_ok = false then some ActionError.spawnFailed
        else if env.wait_ok = false then some ActionError.waitFailed
        else none := by
  cases hs : env.spawn_ok <;> cases hw : env.wait_ok <;>
    simp [run_child, hs, hw]

theorem run_child_exit_status (env : ProcEnv) (c : Int) (cmd : String)
    (args : List String) :
    run_child { env with exit_status := c } cmd args = run_child env cmd args := by
  cases hs : env.spawn_ok <;> cases hw : env.wait_ok <;>
    simp [run_child, hs, hw]

theorem launch_no_ipc (env : ProcEnv) (home : Option String) (app : Application) :
    ∀ a, Event.ipc a ∉ (launch env home app).events := by
  intro a
  unfold launch
  cases app.spawn with
  | some cmd =>
    cases cmd with
    | nil => simp
    | cons c rest => rw [run_child_events]; simp
  | none =>
    cases app.spawn_sh with
    | some sh => rw [run_child_events]; simp
    | none => simp

theorem matched_is_focused_iff (windows : List Window) (w : Window) :
    matched_is_focused windows w = true ↔
      ∃ fw, get_focused_window windows = some fw ∧ fw.id = w.id := by
  unfold matched_is_focused
  cases h : get_focused_window windows with
  | none => simp
  | some fw => simp

/-! ### The claims -/

/-- C5: for every rule and window snapshot the rule resolver pairs the
rule's index with the rule's matched windows sorted ascending by process id
(the comparator treats windows without a pid as equal to everything, and
the sort is stable: windows with an identical pid field keep their snapshot
order); a rule with index k selects exactly the id at position k of its own
sorted list, an out-of-range k selects nothing (and is not an error: the
selection is merely empty), and a rule without an index selects every id in
its sorted list. -/
theorem rule_resolver_semantics (windows : List Window) (rule : MatchRule) :
    (∀ rules : List MatchRule,
      match_windows_with_rules windows rules
        = rules.map fun r => (r.index, rule_matched_ids windows r)) ∧
    (rule_matched_ids windows rule).Perm
      ((windows.filter fun w => is_window_match_rule w rule).map Window.id) ∧
    (∀ a b : Window, a.pid = none ∨ b.pid = none → pid_ordering a b = Ordering.eq) ∧
    ((∀ w ∈ windows.filter fun w => is_window_match_rule w rule, w.pid ≠ none) →
      List.Pairwise (fun a b => pid_ordering a b ≠ Ordering.gt)
        (sort_by_pid (windows.filter fun w => is_window_match_rule w rule))) ∧
    (∀ p : Option Int,
      ((sort_by_pid (windows.filter fun w => is_window_match_rule w rule)).filter
          fun w => w.pid == p)
        = (windows.filter fun w => is_window_match_rule w rule).filter
            fun w => w.pid == p) ∧
    (∀ k wid, mapping_selects (some k) (rule_matched_ids windows rule) wid = true ↔
      (rule_matched_ids windows rule).get? k = some wid) ∧
    (∀ k, (rule_matched_ids windows rule).length ≤ k →
      ∀ wid, mapping_selects (some k) (rule_matched_ids windows rule) wid = false) ∧
    (∀ wid, mapping_selects none (rule_matched_ids windows rule) wid = true ↔
      wid ∈ rule_matched_ids windows rule) := by
  refine ⟨fun rules => rfl, ?_, pid_ordering_eq_of_none, pairwise_sort_by_pid _,
    ⟨fun p => filter_pid_sort_by_pid p _,
     fun k wid => mapping_selects_some_iff k wid _,
     fun k h wid => mapping_selects_out_of_range k wid _ h,
     fun wid => mapping_selects_none_iff wid _⟩⟩
  exact (sort_by_pid_perm _).map Window.id

/-- C6: the pattern matcher accepts a window iff every pattern present on
the rule matches the corresponding window field: an absent pattern imposes
no constraint, a window missing a field the rule has a pattern for is a
non-match, and a rule with neither pattern matches every window. -/
theorem pattern_matcher_spec (w : Window) (r : MatchRule) :
    (is_window_match_rule w r = true ↔
      ((∀ re, r.app_id = some re → ∃ s, w.app_id = some s ∧ re.is_match s = true) ∧
       (∀ re, r.title = some re → ∃ s, w.title = some s ∧ re.is_match s = true))) ∧
    (r.app_id = none → r.title = none → is_window_match_rule w r = true) ∧
    (∀ re, r.app_id = some re → w.app_id = none → is_window_match_rule w r = false) ∧
    (∀ re, r.title = some re → w.title = none → is_window_match_rule w r = false) := by
  cases hra : r.app_id <;> cases hrt : r.title <;>
    cases hwa : w.app_id <;> cases hwt : w.title <;>
      simp [is_window_match_rule, rule_app_id_ok, rule_title_ok, hra, hrt, hwa, hwt]

/-- C1: toggle is a total function of the three-way classification of the
snapshot: when the locator reports no match, toggle is exactly one launch
invocation and issues no mutating IPC request; when the matched window is
the currently focused window, toggle issues the single
move-to-hidden-workspace-without-focus request (or fails with no request
when no hidden workspace exists); otherwise it takes the bring-forward
branch (move-with-focus when the workspaces differ, then focus). -/
theorem toggle_three_way_classification
    (env : ProcEnv) (home : Option String) (app : Application)
    (windows : List Window) (workspaces : List Workspace)
    (r : Option (Window × Workspace))
    (hloc : get_matched_window_and_workspace windows workspaces app.matches' app.excludes
      = Except.ok r) :
    (r = none →
      toggle env home app windows workspaces = launch env home app ∧
      ∀ a, Event.ipc a ∉ (launch env home app).events) ∧
    (∀ w ws, r = some (w, ws) →
      (matched_is_focused windows w = true →
        (∀ e, get_hidden_workspace workspaces = Except.error e →
          toggle env home app windows workspaces = { events := [], error := some e }) ∧
        (∀ hws, get_hidden_workspace workspaces = Except.ok hws →
          toggle env home app windows workspaces
            = { events := [Event.ipc (NiriAction.moveWindowToWorkspace w.id hws.id false)],
                error := none })) ∧
      (matched_is_focused windows w = false →
        toggle env home app windows workspaces = toggle_bring_forward w ws workspaces ∧
        (∀ fws, get_focused_workspace workspaces = Except.ok fws →
          toggle env home app windows workspaces
            = { events :=
                  (if fws.id ≠ ws.id then
                    [Event.ipc (NiriAction.moveWindowToWorkspace w.id fws.id true)]
                  else []) ++ [Event.ipc (NiriAction.focusWindow w.id)],
                error := none }))) := by
  constructor
  · intro hr
    subst hr
    refine ⟨?_, launch_no_ipc env home app⟩
    unfold toggle
    rw [hloc]
  · intro w ws hr
    subst hr
    constructor
    · intro hfoc
      obtain ⟨fw, hfw, hid⟩ := (matched_is_focused_iff windows w).mp hfoc
      constructor
      · intro e he
        simp only [toggle, hloc, hfw]
        rw [if_pos hid, he]
      · intro hws hhws
        simp only [toggle, hloc, hfw]
        rw [if_pos hid, hhws]
    · intro hfoc
      have hbf : toggle env home app windows workspaces
          = toggle_bring_forward w ws workspaces := by
        cases hfw : get_focused_window windows with
        | none => simp only [toggle, hloc, hfw]
        | some fw =>
          have hne : fw.id ≠ w.id := by
            intro he
            exact absurd ((matched_is_focused_iff windows w).mpr ⟨fw, hfw, he⟩)
              (by rw [hfoc]; exact Bool.false_ne_true)
          simp only [toggle, hloc, hfw]
          rw [if_neg hne]
      refine ⟨hbf, ?_⟩
      intro fws hfws
      rw [hbf]
      unfold toggle_bring_forward
      rw [hfws]

/-- C2: when `show` finds a unique matched window, it issues the
move-to-focused-workspace-with-focus request exactly when the matched
window's workspace differs from the focused workspace, and otherwise issues
only the focus-window request; so a second `show` on an already-focused
matched window issues only a focus request. -/
theorem show_moves_only_across_workspaces
    (app : Application) (windows : List Window) (workspaces : List Workspace)
    (w : Window) (ws fws : Workspace)
    (hloc : get_matched_window_and_workspace windows workspaces app.matches' app.excludes
      = Except.ok (some (w, ws)))
    (hfws : get_focused_workspace workspaces = Except.ok fws) :
    (fws.id ≠ ws.id →
      show' app windows workspaces
        = { events := [Event.ipc (NiriAction.moveWindowToWorkspace w.id fws.id true),
                       Event.ipc (NiriAction.focusWindow w.id)],
            error := none }) ∧
    (fws.id = ws.id →
      show' app windows workspaces
        = { events := [Event.ipc (NiriAction.focusWindow w.id)], error := none }) := by
  have hs : show' app windows workspaces
      = { events :=
            (if fws.id ≠ ws.id then
              [Event.ipc (NiriAction.moveWindowToWorkspace w.id fws.id true)]
            else []) ++ [Event.ipc (NiriAction.focusWindow w.id)],
          error := none } := by
    simp only [show', hloc, hfws]
  constructor
  · intro hne
    rw [hs, if_pos hne]
    rfl
  · intro heq
    rw [hs, if_neg (fun h => h heq)]
    rfl

/-- C7: hide fails with no mutating request when the matched window is not
the currently focused window (including when no window is focused), fails
with no mutating request when the matched window is already on the hidden
workspace (or no hidden workspace exists), and only when both checks pass
issues the single move-to-hidden-workspace-without-focus request. -/
theorem hide_checks_before_moving
    (app : Application) (windows : List Window) (workspaces : List Workspace)
    (w : Window) (ws : Workspace)
    (hloc : get_matched_window_and_workspace windows workspaces app.matches' app.excludes
      = Except.ok (some (w, ws))) :
    (get_focused_window windows = none →
      hide app windows workspaces
        = { events := [], error := some ActionError.noFocusedWindow }) ∧
    (∀ fw, get_focused_window windows = some fw → fw.id ≠ w.id →
      hide app windows workspaces
        = { events := [], error := some ActionError.matchedWindowNotFocused }) ∧
    (∀ fw, get_focused_window windows = some fw → fw.id = w.id →
      (∀ e, get_hidden_workspace workspaces = Except.error e →
        hide app windows workspaces = { events := [], error := some e }) ∧
      (∀ hws, get_hidden_workspace workspaces = Except.ok hws →
        (hws.id = ws.id →
          hide app windows workspaces
            = { events := [], error := some ActionError.alreadyInHiddenWorkspace }) ∧
        (hws.id ≠ ws.id →
          hide app windows workspaces
            = { events := [Event.ipc (NiriAction.moveWindowToWorkspace w.id hws.id false)],
                error := none }))) := by
  refine ⟨?_, ?_, ?_⟩
  · intro hfw
    simp only [hide, hloc, hfw]
  · intro fw hfw hne
    simp only [hide, hloc, hfw]
    rw [if_pos hne]
  · intro fw hfw heq
    constructor
    · intro e he
      simp only [hide, hloc, hfw, he]
      rw [if_neg (fun h => h heq)]
    · intro hws hhws
      constructor
      · intro h2
        simp only [hide, hloc, hfw, hhws]
        rw [if_neg (fun h => h heq), if_pos h2]
      · intro h2
        simp only [hide, hloc, hfw, hhws]
        rw [if_neg (fun h => h heq), if_neg h2]

/-- C3: the window locator is an exhaustive classification of the candidate
set (include-selected minus exclude-selected): more than one candidate is an
ambiguity error naming all candidates, zero candidates is `Ok none`
(NoMatch), and a unique candidate yields an error when it has no workspace
identifier, an error when no workspace in the snapshot carries that
identifier, and otherwise the window paired with its owning workspace. -/
theorem window_locator_classification
    (windows : List Window) (workspaces : List Workspace)
    (matches' excludes : List MatchRule) :
    (1 < (candidate_windows windows matches' excludes).length →
      get_matched_window_and_workspace windows workspaces matches' excludes
        = Except.error (ActionError.multipleWindowsMatched
            ((candidate_windows windows matches' excludes).map Window.id))) ∧
    (candidate_windows windows matches' excludes = [] →
      get_matched_window_and_workspace windows workspaces matches' excludes
        = Except.ok none) ∧
    (∀ w, candidate_windows windows matches' excludes = [w] →
      (w.workspace_id = none →
        get_matched_window_and_workspace windows workspaces matches' excludes
          = Except.error (ActionError.windowWithoutWorkspace w.id)) ∧
      (∀ wsid, w.workspace_id = some wsid →
        ((∀ ws ∈ workspaces, ws.id ≠ wsid) →
          get_matched_window_and_workspace windows workspaces matches' excludes
            = Except.error (ActionError.workspaceNotFound wsid)) ∧
        ((∃ ws ∈ workspaces, ws.id = wsid) →
          ∃ ws, get_matched_window_and_workspace windows workspaces matches' excludes
              = Except.ok (some (w, ws)) ∧ ws ∈ workspaces ∧ ws.id = wsid))) := by
  refine ⟨?_, ?_, ?_⟩
  · intro h
    unfold get_matched_window_and_workspace
    rw [if_pos h]
  · intro h
    simp only [get_matched_window_and_workspace, h]
    rfl
  · intro w hw
    constructor
    · intro hwid
      simp only [get_matched_window_and_workspace, hw, hwid]
      rfl
    · intro wsid hwid
      constructor
      · intro hnone
        have hfind : workspaces.find? (fun x => x.id == wsid) = none := by
          rw [List.find?_eq_none]
          intro x hx
          simp only [beq_iff_eq]
          exact hnone x hx
        simp only [get_matched_window_and_workspace, hw, hwid, hfind]
        rfl
      · rintro ⟨ws, hmem, hid⟩
        have hsome : (workspaces.find? (fun x => x.id == wsid)).isSome := by
          rw [List.find?_isSome]
          exact ⟨ws, hmem, beq_iff_eq.mpr hid⟩
        obtain ⟨ws2, hfind⟩ := Option.isSome_iff_exists.mp hsome
        refine ⟨ws2, ?_, List.mem_of_find?_eq_some hfind, ?_⟩
        · simp only [get_matched_window_and_workspace, hw, hwid, hfind]
          rfl
        · have hp := List.find?_some hfind
          simp only [beq_iff_eq] at hp
          exact hp

/-- C4: selection across rules is a set union (a window id selected by any
single rule is in that rule list's selected set) and excludes override
includes (the final match's id is include-selected and not exclude-selected,
so an id in both sets is never the final match). -/
theorem include_union_exclude_wins
    (windows : List Window) (workspaces : List Workspace)
    (matches' excludes : List MatchRule) :
    (∀ rule ∈ matches', ∀ wid, rule_selects windows rule wid = true →
      selected_by_rules windows matches' wid = true) ∧
    (∀ rule ∈ excludes, ∀ wid, rule_selects windows rule wid = true →
      selected_by_rules windows excludes wid = true) ∧
    (∀ w ws, get_matched_window_and_workspace windows workspaces matches' excludes
        = Except.ok (some (w, ws)) →
      selected_by_rules windows matches' w.id = true ∧
      selected_by_rules windows excludes w.id = false) ∧
    (∀ w ws wid, get_matched_window_and_workspace windows workspaces matches' excludes
        = Except.ok (some (w, ws)) →
      selected_by_rules windows matches' wid = true →
      selected_by_rules windows excludes wid = true → w.id ≠ wid) := by
  have hunion : ∀ (rules : List MatchRule), ∀ rule ∈ rules, ∀ wid,
      rule_selects windows rule wid = true →
      selected_by_rules windows rules wid = true := by
    intro rules rule hrule wid hsel
    unfold selected_by_rules match_windows_with_rules
    rw [List.any_eq_true]
    exact ⟨(rule.index, rule_matched_ids windows rule),
      List.mem_map_of_mem _ hrule, hsel⟩
  have hfinal : ∀ w ws, get_matched_window_and_workspace windows workspaces matches' excludes
      = Except.ok (some (w, ws)) →
      selected_by_rules windows matches' w.id = true ∧
      selected_by_rules windows excludes w.id = false := by
    intro w ws h
    obtain ⟨hcs, -, -⟩ := locate_ok_some windows workspaces matches' excludes w ws h
    have hwmem : w ∈ candidate_windows windows matches' excludes := by
      rw [hcs]; exact List.mem_singleton_self w
    unfold candidate_windows at hwmem
    obtain ⟨-, hfilter⟩ := List.mem_filter.mp hwmem
    rw [Bool.and_eq_true, Bool.not_eq_true'] at hfilter
    exact ⟨hfilter.2, hfilter.1⟩
  refine ⟨hunion matches', hunion excludes, hfinal, ?_⟩
  intro w ws wid h hin hex
  obtain ⟨-, hnotex⟩ := hfinal w ws h
  intro heq
  rw [heq] at hnotex
  rw [hex] at hnotex
  exact Bool.noConfusion hnotex

/-! ### Concrete snapshots used by witnesses and counterexamples -/

def env_ok : ProcEnv := { spawn_ok := true, wait_ok := true, exit_status := 0 }

/-- An application with only a launch spec and no match rules. -/
def app_launch_only : Application :=
  { name := "term", spawn := some ["foo"], spawn_sh := none,
    matches' := [], excludes := [] }

/-- A rule with neither pattern and no index: it matches every window. -/
def rule_any : MatchRule := { app_id := none, title := none, index := none }

/-- An application whose single include rule matches every window. -/
def app_any : Application :=
  { name := "any", spawn := some ["foo"], spawn_sh := none,
    matches' := [rule_any], excludes := [] }

def w_lone : Window :=
  { id := 3, title := none, app_id := some "term", pid := some 4,
    workspace_id := some 9, is_focused := false }

def ws_focused : Workspace := { id := 9, is_focused := true, is_hidden := false }

def ws_unfocused : Workspace := { id := 9, is_focused := false, is_hidden := false }

/-- A rule whose app-id pattern accepts exactly the string "term". -/
def rule_term : MatchRule :=
  { app_id := some { is_match := fun s => s == "term" }, title := none, index := none }

def app_term : Application :=
  { name := "term", spawn := some ["foo"], spawn_sh := none,
    matches' := [rule_term], excludes := [] }

def w_term : Window :=
  { id := 1, title := none, app_id := some "term", pid := some 4,
    workspace_id := some 9, is_focused := false }

def w_other_focused : Window :=
  { id := 2, title := none, app_id := some "other", pid := some 5,
    workspace_id := some 9, is_focused := true }

/-- An application with both spawn specs populated. -/
def app_both : Application :=
  { name := "both", spawn := some ["foo"], spawn_sh := some "bar",
    matches' := [], excludes := [] }

/-! ### Remaining claims -/

/-- C8 counterexample: an Application with BOTH spawn specs populated is not
rejected anywhere: launch succeeds, uses the argument-vector spec and
silently ignores the shell spec — no configuration error is surfaced, before
or during the action. -/
theorem launch_accepts_both_specs :
    app_both.spawn = some ["foo"] ∧ app_both.spawn_sh = some "bar" ∧
    launch env_ok none app_both
      = { events := [Event.spawnProcess "foo" []], error := none } :=
  ⟨rfl, rfl, rfl⟩

/-- C8 (amended): at least one spawn spec is required: when neither is
populated, the configuration error is surfaced when the launch path runs
(no earlier validation exists); when the argument-vector spec is populated
it is used — also when the shell spec is populated too, which raises no
error; when only the shell spec is populated, `sh -c` is used. -/
theorem launch_spec_resolution (env : ProcEnv) (home : Option String)
    (app : Application) :
    (app.spawn = none → app.spawn_sh = none →
      launch env home app
        = { events := [], error := some (ActionError.noSpawnCommand app.name) }) ∧
    (app.spawn = some [] →
      launch env home app
        = { events := [], error := some ActionError.emptySpawnCommand }) ∧
    (∀ c rest, app.spawn = some (c :: rest) →
      launch env home app = run_child env (expand_home home c) rest) ∧
    (∀ sh, app.spawn = none → app.spawn_sh = some sh →
      launch env home app = run_child env "sh" ["-c", sh]) := by
  refine ⟨?_, ?_, ?_, ?_⟩
  · intro h1 h2
    simp only [launch, h1, h2]
  · intro h
    simp only [launch, h]
  · intro c rest h
    simp only [launch, h]
  · intro sh h1 h2
    simp only [launch, h1, h2]

/-- C9 counterexample: a snapshot with a unique matched window, no focused
window and no focused workspace: toggle fails instead of bringing the
window forward, so the claim's "toggle does not fail" is false as stated. -/
theorem toggle_fails_without_focused_workspace :
    get_matched_window_and_workspace [w_lone] [ws_unfocused] app_any.matches'
        app_any.excludes = Except.ok (some (w_lone, ws_unfocused)) ∧
    get_focused_window [w_lone] = none ∧
    toggle env_ok none app_any [w_lone] [ws_unfocused]
      = { events := [], error := some ActionError.noFocusedWorkspace } :=
  ⟨rfl, rfl, rfl⟩

/-- C9 (amended): provided the snapshot contains a focused workspace, a
snapshot in which a unique window matches but no window at all is focused
makes toggle take the bring-forward branch: it does not fail, and it does
not hide (every move request it issues carries focus = true). -/
theorem toggle_without_focused_window_brings_forward
    (env : ProcEnv) (home : Option String) (app : Application)
    (windows : List Window) (workspaces : List Workspace)
    (w : Window) (ws fws : Workspace)
    (hloc : get_matched_window_and_workspace windows workspaces app.matches' app.excludes
      = Except.ok (some (w, ws)))
    (hfw : get_focused_window windows = none)
    (hfws : get_focused_workspace workspaces = Except.ok fws) :
    toggle env home app windows workspaces
      = { events :=
            (if fws.id ≠ ws.id then
              [Event.ipc (NiriAction.moveWindowToWorkspace w.id fws.id true)]
            else []) ++ [Event.ipc (NiriAction.focusWindow w.id)],
          error := none } ∧
    (toggle env home app windows workspaces).error = none ∧
    (∀ wsid focus, Event.ipc (NiriAction.moveWindowToWorkspace w.id wsid focus)
        ∈ (toggle env home app windows workspaces).events → focus = true) := by
  have ht : toggle env home app windows workspaces
      = { events :=
            (if fws.id ≠ ws.id then
              [Event.ipc (NiriAction.moveWindowToWorkspace w.id fws.id true)]
            else []) ++ [Event.ipc (NiriAction.focusWindow w.id)],
          error := none } := by
    simp only [toggle, hloc, hfw, toggle_bring_forward, hfws]
  refine ⟨ht, by rw [ht], ?_⟩
  intro wsid focus hmem
  rw [ht] at hmem
  by_cases hne : fws.id ≠ ws.id
  · rw [if_pos hne] at hmem
    simp only [List.cons_append, List.nil_append, List.mem_cons,
      List.not_mem_nil, or_false] at hmem
    rcases hmem with hmem | hmem
    · simp only [Event.ipc.injEq, NiriAction.moveWindowToWorkspace.injEq] at hmem
      exact hmem.2.2
    · simp at hmem
  · rw [if_neg hne] at hmem
    simp at hmem

/-- C10: launch consults the outcome of waiting on the child and then
returns success regardless of the child's exit status: its outcome is
independent of the reported exit status, and once a spawn spec resolves the
only error conditions are spawn failure and wait failure (a non-zero exit
status is not an error). -/
theorem launch_ignores_exit_status (env : ProcEnv) (home : Option String)
    (app : Application) (c : Int) :
    launch { env with exit_status := c } home app = launch env home app ∧
    (∀ cmd rest, app.spawn = some (cmd :: rest) →
      (launch env home app).error
        = if env.spawn_ok = false then some ActionError.spawnFailed
          else if env.wait_ok = false then some ActionError.waitFailed
          else none) ∧
    (∀ sh, app.spawn = none → app.spawn_sh = some sh →
      (launch env home app).error
        = if env.spawn_ok = false then some ActionError.spawnFailed
          else if env.wait_ok = false then some ActionError.waitFailed
          else none) := by
  refine ⟨?_, ?_, ?_⟩
  · unfold launch
    cases hs : app.spawn with
    | some cmd =>
      cases cmd with
      | nil => rfl
      | cons c0 rest => exact run_child_exit_status env c _ rest
    | none =>
      cases hsh : app.spawn_sh with
      | some sh => exact run_child_exit_status env c _ _
      | none => rfl
  · intro cmd rest h
    simp only [launch, h]
    exact run_child_error env _ rest
  · intro sh h1 h2
    simp only [launch, h1, h2]
    exact run_child_error env _ _

/-! ### Witnesses -/

/-- C1 witness: at a concrete no-match snapshot, toggle equals one launch
invocation and that invocation's events contain no IPC request. -/
theorem toggle_three_way_classification_witness :
    toggle env_ok none app_launch_only [] [] = launch env_ok none app_launch_only ∧
    ∀ a, Event.ipc a ∉ (launch env_ok none app_launch_only).events :=
  (toggle_three_way_classification env_ok none app_launch_only [] [] none rfl).1 rfl

/-- C2 witness: on a snapshot whose matched window already sits on the
focused workspace, show issues only the focus request. -/
theorem show_moves_only_across_workspaces_witness :
    show' app_any [w_lone] [ws_focused]
      = { events := [Event.ipc (NiriAction.focusWindow w_lone.id)], error := none } :=
  (show_moves_only_across_workspaces app_any [w_lone] [ws_focused] w_lone ws_focused
    ws_focused rfl rfl).2 rfl

/-- C7 witness: hide on a snapshot whose matched window is not the focused
one fails with the not-focused error and issues nothing. -/
theorem hide_checks_before_moving_witness :
    hide app_term [w_term, w_other_focused] [ws_focused]
      = { events := [], error := some ActionError.matchedWindowNotFocused } :=
  ((hide_checks_before_moving app_term [w_term, w_other_focused] [ws_focused]
      w_term ws_focused rfl).2.1) w_other_focused rfl (by decide)

/-- C9 witness: with a focused workspace present and no focused window,
toggle brings the matched window forward (here: focus only). -/
theorem toggle_without_focused_window_brings_forward_witness :
    toggle env_ok none app_any [w_lone] [ws_focused]
      = { events :=
            (if ws_focused.id ≠ ws_focused.id then
              [Event.ipc (NiriAction.moveWindowToWorkspace w_lone.id ws_focused.id true)]
            else []) ++ [Event.ipc (NiriAction.focusWindow w_lone.id)],
          error := none } ∧
    (toggle env_ok none app_any [w_lone] [ws_focused]).error = none ∧
    (∀ wsid focus, Event.ipc (NiriAction.moveWindowToWorkspace w_lone.id wsid focus)
        ∈ (toggle env_ok none app_any [w_lone] [ws_focused]).events → focus = true) :=
  toggle_without_focused_window_brings_forward env_ok none app_any [w_lone]
    [ws_focused] w_lone ws_focused ws_focused rfl rfl rfl
